import Mathlib

/-!
Verification of the kozani-ext extension core
(src/extensions/kozani-ext/src/extension.ts).

The development shallowly embeds the extension logic:

* host-thrown JavaScript errors become a `JsError` record carrying the
  error name and message (the code branches on `error.name`);
* the outcome of a single `fetch` is an environment-chosen `FetchResult`:
  either a rejection with a `JsError`, or a response with a status,
  a status text and an optional list of body byte chunks;
* the streaming `TextDecoder` is an arbitrary stateful `Decoder`, since
  decoding is a host API (`decode(value, stream: true)` threads state);
* the one-shot abort signal is modelled by the index of the
  `reader.read()` call before which the abort takes effect (`none` when
  the signal never fires before the stream completes);
* each handler is a function from its inputs and the environment to the
  list of user-visible effects it performs, in order (`Event`): progress
  reports, markdown fragments and the outbound HTTP request.
-/

/-- Model of a thrown JavaScript `Error`: the handlers branch on `name`
(`AbortError` versus everything else) and build `message` strings. -/
structure JsError where
  name : String
  message : String
deriving DecidableEq, Repr

/-- Model of a `vscode.AuthenticationSession`: the code uses only
`session.accessToken` and `session.account.label`. -/
structure Session where
  accessToken : String
  accountLabel : String
deriving DecidableEq, Repr

/-- One element of the `messages` array sent to the backend:
`{ role, content }`. -/
structure ChatMessage where
  role : String
  content : String
deriving DecidableEq, Repr

/-- JSON values, restricted to the shapes this code builds
(`JSON.stringify(\x7b messages \x7d)`): strings, arrays and objects. -/
inductive Json where
  | str (s : String)
  | arr (xs : List Json)
  | obj (fields : List (String × Json))

/-- Encoding of one message as the object `\x7b role, content \x7d`. -/
def messageToJson (m : ChatMessage) : Json :=
  Json.obj [("role", Json.str m.role), ("content", Json.str m.content)]

/-- Encoding of the request body `JSON.stringify(\x7b messages \x7d)`
at the JSON level. -/
def messagesBodyJson (msgs : List ChatMessage) : Json :=
  Json.obj [("messages", Json.arr (msgs.map messageToJson))]

/-- Inverse reading of one `\x7b role, content \x7d` object. -/
def jsonToMessage : Json → Option ChatMessage
  | Json.obj [("role", Json.str r), ("content", Json.str c)] => some ⟨r, c⟩
  | _ => none

/-- Inverse reading of a list of message objects. -/
def jsonToMessageList : List Json → Option (List ChatMessage)
  | [] => some []
  | j :: rest =>
    match jsonToMessage j, jsonToMessageList rest with
    | some m, some ms => some (m :: ms)
    | _, _ => none

/-- Inverse reading of a request body: recovers the `messages` list. -/
def jsonToMessages : Json → Option (List ChatMessage)
  | Json.obj [("messages", Json.arr xs)] => jsonToMessageList xs
  | _ => none

/-- The outbound HTTP request as `fetch` is invoked: URL, method,
headers and JSON body. -/
structure HttpRequest where
  url : String
  method : String
  headers : List (String × String)
  body : Json

/-- The request `streamFromBackend` builds:
`fetch(KOZANI_API_URL + "/api/chat", ...)` with the content-type and
bearer-token headers and the stringified `\x7b messages \x7d` body. -/
def buildChatRequest (apiUrl : String) (messages : List ChatMessage)
    (token : String) : HttpRequest :=
  { url := apiUrl ++ "/api/chat"
    method := "POST"
    headers := [("Content-Type", "application/json"),
                ("Authorization", "Bearer " ++ token)]
    body := messagesBodyJson messages }

/-- One `value` delivered by `reader.read()`: a chunk of raw bytes. -/
def ByteChunk : Type := List Nat

/-- Model of a streaming `TextDecoder`: `decode(value, stream: true)`
maps a decoder state and a byte chunk to the decoded text and the next
state. The theorems hold for every decoder. -/
structure Decoder (σ : Type) where
  init : σ
  decode : σ → ByteChunk → String × σ

/-- The error a pending `reader.read()` rejects with once the abort
signal has fired. -/
def abortError : JsError :=
  { name := "AbortError", message := "The operation was aborted" }

/-- The read loop of `streamFromBackend`: repeatedly `await reader.read()`,
decode the chunk and hand it to `onChunk`, until `done` or until the
abort signal fires. The result is the list of `onChunk` arguments in
call order, together with the terminal rejection when one occurs.
`ab = some k` means the signal fires before the `(k+1)`-st read. -/
def readLoop {σ : Type} (D : Decoder σ) :
    σ → Option Nat → List ByteChunk → List String × Option JsError
  | _, some 0, _ => ([], some abortError)
  | _, _, [] => ([], none)
  | st, ab, c :: rest =>
    let p := D.decode st c
    let r := readLoop D p.2 (ab.map (fun n => n - 1)) rest
    (p.1 :: r.1, r.2)

/-- The environment-chosen outcome of the single `fetch`: a rejection
(network failure, or abort before the response arrives), or a response
with its status, status text and optional body chunks. -/
inductive FetchResult where
  | reject (e : JsError)
  | resp (status : Nat) (statusText : String) (body : Option (List ByteChunk))

/-- What `streamFromBackend` emits and how it terminates, given the
fetch outcome: reject on `!response.ok` with the `API error` message,
reject when the body is absent, otherwise run the read loop. A status
is `ok` exactly when it lies in 200..299. -/
def streamOutcome {σ : Type} (D : Decoder σ) (ab : Option Nat)
    (net : FetchResult) : List String × Option JsError :=
  match net with
  | FetchResult.reject e => ([], some e)
  | FetchResult.resp status statusText body =>
    if 200 ≤ status ∧ status < 300 then
      match body with
      | none => ([], some { name := "Error", message := "No response body" })
      | some chunks => readLoop D D.init ab chunks
    else
      ([], some { name := "Error",
                  message := "API error: " ++ toString status ++ " " ++ statusText })

/-- One run of `streamFromBackend`: the request it issued, the `onChunk`
calls it made in order, and its terminal rejection if any
(`error = none` means the returned promise resolved). -/
structure StreamRun where
  request : HttpRequest
  emitted : List String
  error : Option JsError

/-- Model of `streamFromBackend(messages, token, signal, onChunk)`. -/
def streamFromBackend {σ : Type} (D : Decoder σ) (apiUrl : String)
    (messages : List ChatMessage) (token : String) (ab : Option Nat)
    (net : FetchResult) : StreamRun :=
  { request := buildChatRequest apiUrl messages token
    emitted := (streamOutcome D ab net).1
    error := (streamOutcome D ab net).2 }

/-- The per-chunk decode scan: the decoded text content of each chunk,
in arrival order, threading the decoder state. -/
def decodeTrace {σ : Type} (D : Decoder σ) : σ → List ByteChunk → List String
  | _, [] => []
  | st, c :: rest => (D.decode st c).1 :: decodeTrace D (D.decode st c).2 rest

/-- The decoder state after consuming a list of chunks. -/
def stateAfter {σ : Type} (D : Decoder σ) : σ → List ByteChunk → σ
  | st, [] => st
  | st, c :: rest => stateAfter D (D.decode st c).2 rest

/-- Role of a `vscode.LanguageModelChatMessage`. -/
inductive LMRole where
  | user
  | assistant
deriving DecidableEq, Repr

/-- One content part of a language-model message: a
`LanguageModelTextPart` or anything else. -/
inductive LMPart where
  | text (value : String)
  | otherKind
deriving DecidableEq, Repr

/-- The string a content part contributes: text parts contribute their
value, every other part contributes the empty string. -/
def partText : LMPart → String
  | LMPart.text v => v
  | LMPart.otherKind => ""

/-- A `vscode.LanguageModelChatMessage` as the provider consumes it. -/
structure LMMessage where
  role : LMRole
  content : List LMPart

/-- The per-message conversion in `provideLanguageModelChatResponse`:
`role === User ? "user" : "assistant"` and the joined text parts. -/
def formatMessage (m : LMMessage) : ChatMessage :=
  { role := match m.role with
      | LMRole.user => "user"
      | LMRole.assistant => "assistant"
    content := String.join (m.content.map partText) }

/-- Model of `getGitHubSession`: the host call either resolves to an
optional session or throws; a throw is caught and turned into
`undefined` (`none`). -/
def getGitHubSession (_createIfNone : Bool)
    (hostAuth : Except JsError (Option Session)) : Option Session :=
  match hostAuth with
  | Except.ok s => s
  | Except.error _ => none

/-- The sign-in prompt the provider reports when no session exists. -/
def signInPrompt : String := "Please sign in with GitHub to use Kozani."

/-- The placeholder the provider reports when the backend call fails
with anything other than an abort. -/
def placeholderMessage (apiUrl : String) : String :=
  "Hello! I\x27m Kozani. The backend at " ++ apiUrl ++
    " is not available yet.\n\nTo complete setup, start your backend server."

/-- The markdown the chat participant shows when no session exists. -/
def authRequiredMessage : String :=
  "⚠️ **Authentication required**\n\nPlease sign in with GitHub to use Kozani."

/-- The markdown the chat participant appends on cancellation. -/
def cancelledNotice : String := "\n\n*Request cancelled*"

/-- The fallback line that names the backend URL. -/
def backendSetupLine (apiUrl : String) : String :=
  "1. Start your backend server at `" ++ apiUrl ++ "`\n"

/-- The markdown fragments of the chat-participant fallback branch, in
emission order. -/
def chatFallback (apiUrl accountLabel prompt : String) : List String :=
  ["👋 Hello **" ++ accountLabel ++ "**!\n\n",
   "You asked: *" ++ prompt ++ "*\n\n",
   "---\n\n",
   "✅ **GitHub Auth working!**\n\n",
   "Your GitHub token is ready to send to the Kozani backend.\n\n",
   "To complete the setup:\n",
   backendSetupLine apiUrl,
   "2. Implement the `POST /api/chat` endpoint\n",
   "3. Validate the GitHub token and process the request\n"]

/-- A user-visible effect of a handler, in program order:
`report` is `progress.report(new LanguageModelTextPart s)`, `markdown`
is `response.markdown(s)`, `progress` is `response.progress(s)`, and
`http` is the outbound request issued inside `streamFromBackend`. -/
inductive Event where
  | report (s : String)
  | markdown (s : String)
  | progress (s : String)
  | http (r : HttpRequest)

/-- Model of `provideLanguageModelChatResponse`: resolve the session
with `createIfNone = false`; without one, report the sign-in prompt and
return. Otherwise format the messages, stream from the backend relaying
each chunk through `progress.report`, and on a non-abort rejection
report the placeholder. -/
def provideLanguageModelChatResponse {σ : Type} (D : Decoder σ)
    (apiUrl : String) (hostAuth : Except JsError (Option Session))
    (messages : List LMMessage) (ab : Option Nat) (net : FetchResult) :
    List Event :=
  match getGitHubSession false hostAuth with
  | none => [Event.report signInPrompt]
  | some s =>
    let run := streamFromBackend D apiUrl (messages.map formatMessage)
      s.accessToken ab net
    Event.http run.request :: run.emitted.map Event.report ++
      (match run.error with
       | none => []
       | some e =>
         if e.name = "AbortError" then []
         else [Event.report (placeholderMessage apiUrl)])

/-- The chat-participant handler result: its effects and the metadata
title it returns. -/
structure ChatResult where
  events : List Event
  title : String

/-- Model of the chat-participant handler: resolve the session with
`createIfNone = true`; without one, show the authentication-required
markdown and return title `Auth Required`. Otherwise show progress,
stream a single user message relaying each chunk through
`response.markdown`, and on rejection show the cancelled notice for an
abort or the fallback markdown otherwise. -/
def chatParticipantHandler {σ : Type} (D : Decoder σ) (apiUrl : String)
    (hostAuth : Except JsError (Option Session)) (prompt : String)
    (ab : Option Nat) (net : FetchResult) : ChatResult :=
  match getGitHubSession true hostAuth with
  | none => ⟨[Event.markdown authRequiredMessage], "Auth Required"⟩
  | some s =>
    let run := streamFromBackend D apiUrl [⟨"user", prompt⟩]
      s.accessToken ab net
    ⟨Event.progress "Thinking..." :: Event.http run.request ::
       run.emitted.map Event.markdown ++
        (match run.error with
         | none => []
         | some e =>
           if e.name = "AbortError" then [Event.markdown cancelledNotice]
           else (chatFallback apiUrl s.accountLabel prompt).map Event.markdown),
     "Kozani Chat"⟩

/-- The argument of `provideTokenCount`: a plain string or a chat
message. -/
inductive TokenCountText where
  | plain (s : String)
  | message (m : LMMessage)

/-- The string whose length is counted: the string itself, or the
joined text parts of the message with non-text parts contributing
the empty string. -/
def contentOf : TokenCountText → String
  | TokenCountText.plain s => s
  | TokenCountText.message m => String.join (m.content.map partText)

/-- Model of `Math.ceil(n / 4)` on a natural number. -/
def jsCeilDiv4 (n : Nat) : Nat := (n + 3) / 4

/-- Model of `provideTokenCount`: `Math.ceil(content.length / 4)`. -/
def provideTokenCount (text : TokenCountText) : Nat :=
  jsCeilDiv4 (contentOf text).length

/-- A concrete decoder used to instantiate the generic theorems: each
byte becomes one character, with no carried state. -/
def byteDecoder : Decoder Unit :=
  { init := ()
    decode := fun _ c => (String.mk (c.map Char.ofNat), ()) }

/-- The read loop with a signal that never fires performs exactly the
per-chunk decode scan and resolves. -/
lemma readLoop_none {σ : Type} (D : Decoder σ) :
    ∀ (chunks : List ByteChunk) (st : σ),
      readLoop D st none chunks = (decodeTrace D st chunks, none) := by
  intro chunks
  induction chunks with
  | nil => intro st; rfl
  | cons c rest ih =>
    intro st
    simp only [readLoop, Option.map_none', decodeTrace, ih]

/-- The read loop with a signal firing before the `(k+1)`-st read emits
exactly the first `k` decoded chunks and rejects with the abort error,
provided the stream has not completed by then. -/
lemma readLoop_abort {σ : Type} (D : Decoder σ) :
    ∀ (chunks : List ByteChunk) (k : Nat) (st : σ), k ≤ chunks.length →
      readLoop D st (some k) chunks
        = ((decodeTrace D st chunks).take k, some abortError) := by
  intro chunks
  induction chunks with
  | nil =>
    intro k st hk
    have hz : k = 0 := Nat.le_zero.mp hk
    subst hz
    rfl
  | cons c rest ih =>
    intro k st hk
    cases k with
    | zero => rfl
    | succ j =>
      have hj : j ≤ rest.length := by
        simpa using hk
      simp only [readLoop, Option.map_some', Nat.succ_sub_one,
        Nat.add_sub_cancel, decodeTrace, List.take_succ_cons]
      rw [ih j _ hj]

/-- The decode scan produces exactly one string per chunk. -/
lemma decodeTrace_length {σ : Type} (D : Decoder σ) :
    ∀ (chunks : List ByteChunk) (st : σ),
      (decodeTrace D st chunks).length = chunks.length := by
  intro chunks
  induction chunks with
  | nil => intro st; rfl
  | cons c rest ih => intro st; simp [decodeTrace, ih]

/-- The `i`-th element of the decode scan is the decode of the `i`-th
chunk under the decoder state reached after the first `i` chunks. -/
lemma decodeTrace_getElem {σ : Type} (D : Decoder σ) :
    ∀ (chunks : List ByteChunk) (st : σ) (i : Nat),
      (decodeTrace D st chunks)[i]? =
        (chunks[i]?).map
          (fun c => (D.decode (stateAfter D st (chunks.take i)) c).1) := by
  intro chunks
  induction chunks with
  | nil => intro st i; simp [decodeTrace]
  | cons c rest ih =>
    intro st i
    cases i with
    | zero => simp [decodeTrace, stateAfter]
    | succ j =>
      simp only [decodeTrace, List.getElem?_cons_succ, List.take_succ_cons,
        stateAfter, ih]

/-- Reading back an encoded message list recovers the list. -/
lemma jsonToMessageList_roundtrip :
    ∀ msgs : List ChatMessage,
      jsonToMessageList (msgs.map messageToJson) = some msgs := by
  intro msgs
  induction msgs with
  | nil => rfl
  | cons m rest ih =>
    simp [jsonToMessageList, jsonToMessage, messageToJson, ih]

/-- Reading back an encoded request body recovers the messages. -/
lemma jsonToMessages_roundtrip (msgs : List ChatMessage) :
    jsonToMessages (messagesBodyJson msgs) = some msgs := by
  simp [jsonToMessages, messagesBodyJson, jsonToMessageList_roundtrip]

/-- A rejected fetch with a non-abort error, or a response with a
non-success status, makes the stream reject with a non-abort error and
emit no chunk. -/
lemma streamOutcome_failure {σ : Type} (D : Decoder σ) (ab : Option Nat)
    (net : FetchResult)
    (h : (∃ e, net = FetchResult.reject e ∧ e.name ≠ "AbortError") ∨
         (∃ status statusText body,
           net = FetchResult.resp status statusText body ∧
             ¬ (200 ≤ status ∧ status < 300))) :
    ∃ e, streamOutcome D ab net = ([], some e) ∧ e.name ≠ "AbortError" := by
  rcases h with ⟨e, hnet, hname⟩ | ⟨status, statusText, body, hnet, hbad⟩
  · subst hnet
    exact ⟨e, rfl, hname⟩
  · subst hnet
    refine ⟨{ name := "Error",
              message := "API error: " ++ toString status ++ " " ++ statusText },
            by simp [streamOutcome, hbad], ?_⟩
    show "Error" ≠ "AbortError"
    decide

/-- Claim C1: on a success response, `streamFromBackend` invokes the
`onChunk` callback exactly once per chunk delivered by the body reader,
in arrival order, with the decoded text content of that chunk, and for
no other input: the emitted list is exactly the per-chunk decode scan,
has one element per chunk, and its `i`-th element is the decode of the
`i`-th chunk under the streamed decoder state. -/
theorem streamFromBackend_relays_every_chunk_in_order {σ : Type}
    (D : Decoder σ) (apiUrl token statusText : String)
    (messages : List ChatMessage) (status : Nat) (chunks : List ByteChunk)
    (hok : 200 ≤ status ∧ status < 300) :
    (streamFromBackend D apiUrl messages token none
        (FetchResult.resp status statusText (some chunks))).error = none ∧
    (streamFromBackend D apiUrl messages token none
        (FetchResult.resp status statusText (some chunks))).emitted
      = decodeTrace D D.init chunks ∧
    (streamFromBackend D apiUrl messages token none
        (FetchResult.resp status statusText (some chunks))).emitted.length
      = chunks.length ∧
    ∀ i, i < chunks.length →
      (streamFromBackend D apiUrl messages token none
          (FetchResult.resp status statusText (some chunks))).emitted[i]?
        = (chunks[i]?).map
            (fun c => (D.decode (stateAfter D D.init (chunks.take i)) c).1) := by
  have hso : streamOutcome D none
      (FetchResult.resp status statusText (some chunks))
      = (decodeTrace D D.init chunks, none) := by
    simp [streamOutcome, hok, readLoop_none]
  refine ⟨?_, ?_, ?_, ?_⟩
  · show (streamOutcome D none
      (FetchResult.resp status statusText (some chunks))).2 = none
    rw [hso]
  · show (streamOutcome D none
      (FetchResult.resp status statusText (some chunks))).1
      = decodeTrace D D.init chunks
    rw [hso]
  · show (streamOutcome D none
      (FetchResult.resp status statusText (some chunks))).1.length
      = chunks.length
    rw [hso]
    exact decodeTrace_length D chunks D.init
  · intro i _
    show (streamOutcome D none
      (FetchResult.resp status statusText (some chunks))).1[i]? = _
    rw [hso]
    exact decodeTrace_getElem D chunks D.init i

/-- Witness for C1: two concrete byte chunks are relayed as two decoded
strings, in order, and the stream resolves. -/
theorem streamFromBackend_relays_witness :
    (streamFromBackend byteDecoder "http://localhost:5000"
        [⟨"user", "hi"⟩] "tok" none
        (FetchResult.resp 200 "OK" (some [[104, 105], [33]]))).emitted
      = ["hi", "!"] ∧
    (streamFromBackend byteDecoder "http://localhost:5000"
        [⟨"user", "hi"⟩] "tok" none
        (FetchResult.resp 200 "OK" (some [[104, 105], [33]]))).error = none := by
  have h := streamFromBackend_relays_every_chunk_in_order byteDecoder
    "http://localhost:5000" "tok" "OK" [⟨"user", "hi"⟩] 200
    [[104, 105], [33]] (by decide)
  exact ⟨h.2.1.trans (by rfl), h.1⟩

/-- Claim C2: when no authenticated session is obtained, neither handler
issues the HTTP request: each emits exactly its sign-in prompt (which
mentions signing in with GitHub) and returns, so no `http` event occurs
in either effect list. -/
theorem no_session_means_no_request {σ : Type} (D : Decoder σ)
    (apiUrl prompt : String) (authP authC : Except JsError (Option Session))
    (messages : List LMMessage) (abP abC : Option Nat)
    (netP netC : FetchResult)
    (hP : getGitHubSession false authP = none)
    (hC : getGitHubSession true authC = none) :
    provideLanguageModelChatResponse D apiUrl authP messages abP netP
      = [Event.report signInPrompt] ∧
    (chatParticipantHandler D apiUrl authC prompt abC netC).events
      = [Event.markdown authRequiredMessage] ∧
    (chatParticipantHandler D apiUrl authC prompt abC netC).title
      = "Auth Required" ∧
    (∀ r, Event.http r ∉
      provideLanguageModelChatResponse D apiUrl authP messages abP netP) ∧
    (∀ r, Event.http r ∉
      (chatParticipantHandler D apiUrl authC prompt abC netC).events) ∧
    (∃ p q, signInPrompt = p ++ "sign in with GitHub" ++ q) ∧
    (∃ p q, authRequiredMessage = p ++ "sign in with GitHub" ++ q) := by
  have hPe : provideLanguageModelChatResponse D apiUrl authP messages abP netP
      = [Event.report signInPrompt] := by
    simp [provideLanguageModelChatResponse, hP]
  have hCe : chatParticipantHandler D apiUrl authC prompt abC netC
      = ⟨[Event.markdown authRequiredMessage], "Auth Required"⟩ := by
    simp [chatParticipantHandler, hC]
  refine ⟨hPe, by rw [hCe], by rw [hCe], ?_, ?_, ?_, ?_⟩
  · intro r
    rw [hPe]
    simp
  · intro r
    rw [hCe]
    simp
  · exact ⟨"Please ", " to use Kozani.", rfl⟩
  · exact ⟨"⚠️ **Authentication required**\n\nPlease ", " to use Kozani.", rfl⟩

/-- Witness for C2: with an auth call that throws for the provider and
one that resolves without a session for the participant, both handlers
emit only their sign-in prompt. -/
theorem no_session_means_no_request_witness :
    provideLanguageModelChatResponse byteDecoder "http://localhost:5000"
        (Except.error ⟨"Error", "auth failed"⟩) [] none
        (FetchResult.resp 200 "OK" (some []))
      = [Event.report signInPrompt] ∧
    (chatParticipantHandler byteDecoder "http://localhost:5000"
        (Except.ok none) "hi" none
        (FetchResult.resp 200 "OK" (some []))).events
      = [Event.markdown authRequiredMessage] :=
  ⟨(no_session_means_no_request byteDecoder "http://localhost:5000" "hi"
      (Except.error ⟨"Error", "auth failed"⟩) (Except.ok none) [] none none
      (FetchResult.resp 200 "OK" (some []))
      (FetchResult.resp 200 "OK" (some [])) rfl rfl).1,
   (no_session_means_no_request byteDecoder "http://localhost:5000" "hi"
      (Except.error ⟨"Error", "auth failed"⟩) (Except.ok none) [] none none
      (FetchResult.resp 200 "OK" (some []))
      (FetchResult.resp 200 "OK" (some [])) rfl rfl).2.1⟩

/-- Claim C3: on a response whose status is not a success status,
`streamFromBackend` rejects with an `Error` whose message names the
status code, and the `onChunk` callback is never invoked; the rejection
makes the outcome distinct from any resolved stream. -/
theorem non_success_status_rejects_without_chunks {σ : Type}
    (D : Decoder σ) (apiUrl token statusText : String)
    (messages : List ChatMessage) (ab : Option Nat) (status : Nat)
    (body : Option (List ByteChunk))
    (hbad : ¬ (200 ≤ status ∧ status < 300)) :
    (streamFromBackend D apiUrl messages token ab
        (FetchResult.resp status statusText body)).emitted = [] ∧
    (streamFromBackend D apiUrl messages token ab
        (FetchResult.resp status statusText body)).error
      = some { name := "Error",
               message := "API error: " ++ toString status ++ " " ++ statusText } ∧
    (streamFromBackend D apiUrl messages token ab
        (FetchResult.resp status statusText body)).error ≠ none ∧
    (∃ p q, "API error: " ++ toString status ++ " " ++ statusText
      = p ++ toString status ++ q) := by
  have hso : streamOutcome D ab (FetchResult.resp status statusText body)
      = ([], some { name := "Error",
                    message := "API error: " ++ toString status ++ " " ++
                      statusText }) := by
    simp [streamOutcome, hbad]
  refine ⟨?_, ?_, ?_, ?_⟩
  · show (streamOutcome D ab (FetchResult.resp status statusText body)).1 = []
    rw [hso]
  · show (streamOutcome D ab (FetchResult.resp status statusText body)).2 = _
    rw [hso]
  · show (streamOutcome D ab (FetchResult.resp status statusText body)).2 ≠ none
    rw [hso]
    simp
  · exact ⟨"API error: ", " " ++ statusText, by
      rw [String.append_assoc]⟩

/-- Witness for C3: a 404 response rejects with the message naming 404
and no chunk is relayed. -/
theorem non_success_status_rejects_witness :
    (streamFromBackend byteDecoder "http://localhost:5000"
        [⟨"user", "hi"⟩] "tok" none
        (FetchResult.resp 404 "Not Found" (some [[104]]))).emitted = [] ∧
    (streamFromBackend byteDecoder "http://localhost:5000"
        [⟨"user", "hi"⟩] "tok" none
        (FetchResult.resp 404 "Not Found" (some [[104]]))).error
      = some ⟨"Error", "API error: 404 Not Found"⟩ := by
  have h := non_success_status_rejects_without_chunks byteDecoder
    "http://localhost:5000" "tok" "Not Found" [⟨"user", "hi"⟩] none 404
    (some [[104]]) (by decide)
  exact ⟨h.1, h.2.1.trans (by rfl)⟩

/-- Claim C4: when the abort signal fires before the stream completes,
the callback receives exactly the chunks decoded before the abort and
nothing after it, and neither handler surfaces its generic
backend-failure fallback: the provider performs only the request and
the pre-abort reports, the participant only its progress, request,
pre-abort markdown and the cancelled notice. -/
theorem abort_stops_callbacks_without_fallback {σ : Type} (D : Decoder σ)
    (apiUrl prompt statusText : String) (sP sC : Session)
    (messages : List LMMessage) (status k : Nat) (chunks : List ByteChunk)
    (hok : 200 ≤ status ∧ status < 300) (hk : k ≤ chunks.length) :
    (streamFromBackend D apiUrl (messages.map formatMessage) sP.accessToken
        (some k) (FetchResult.resp status statusText (some chunks))).emitted
      = (decodeTrace D D.init chunks).take k ∧
    ((decodeTrace D D.init chunks).take k).length = k ∧
    provideLanguageModelChatResponse D apiUrl (Except.ok (some sP)) messages
        (some k) (FetchResult.resp status statusText (some chunks))
      = Event.http (buildChatRequest apiUrl (messages.map formatMessage)
            sP.accessToken)
          :: ((decodeTrace D D.init chunks).take k).map Event.report ∧
    (chatParticipantHandler D apiUrl (Except.ok (some sC)) prompt
        (some k) (FetchResult.resp status statusText (some chunks))).events
      = Event.progress "Thinking..."
          :: Event.http (buildChatRequest apiUrl [⟨"user", prompt⟩]
                sC.accessToken)
          :: ((decodeTrace D D.init chunks).take k).map Event.markdown
          ++ [Event.markdown cancelledNotice] := by
  have hso : streamOutcome D (some k)
      (FetchResult.resp status statusText (some chunks))
      = ((decodeTrace D D.init chunks).take k, some abortError) := by
    simp [streamOutcome, hok, readLoop_abort D chunks k D.init hk]
  refine ⟨?_, ?_, ?_, ?_⟩
  · show (streamOutcome D (some k)
      (FetchResult.resp status statusText (some chunks))).1 = _
    rw [hso]
  · rw [List.length_take, decodeTrace_length]
    exact Nat.min_eq_left hk
  · simp [provideLanguageModelChatResponse, getGitHubSession,
      streamFromBackend, hso, abortError]
  · simp [chatParticipantHandler, getGitHubSession,
      streamFromBackend, hso, abortError]

/-- Witness for C4: aborting after the first of two chunks relays only
that chunk and surfaces no fallback in either handler. -/
theorem abort_stops_callbacks_witness :
    provideLanguageModelChatResponse byteDecoder "http://localhost:5000"
        (Except.ok (some ⟨"tok", "alice"⟩))
        [⟨LMRole.user, [LMPart.text "hi"]⟩] (some 1)
        (FetchResult.resp 200 "OK" (some [[104], [105]]))
      = Event.http (buildChatRequest "http://localhost:5000"
            ([⟨LMRole.user, [LMPart.text "hi"]⟩].map formatMessage) "tok")
          :: ((decodeTrace byteDecoder byteDecoder.init
                [[104], [105]]).take 1).map Event.report ∧
    (chatParticipantHandler byteDecoder "http://localhost:5000"
        (Except.ok (some ⟨"tok", "alice"⟩)) "hi" (some 1)
        (FetchResult.resp 200 "OK" (some [[104], [105]]))).events
      = Event.progress "Thinking..."
          :: Event.http (buildChatRequest "http://localhost:5000"
                [⟨"user", "hi"⟩] "tok")
          :: ((decodeTrace byteDecoder byteDecoder.init
                [[104], [105]]).take 1).map Event.markdown
          ++ [Event.markdown cancelledNotice] := by
  have h := abort_stops_callbacks_without_fallback byteDecoder
    "http://localhost:5000" "hi" "OK" ⟨"tok", "alice"⟩ ⟨"tok", "alice"⟩
    [⟨LMRole.user, [LMPart.text "hi"]⟩] 200 1 [[104], [105]]
    (by decide) (by decide)
  exact ⟨h.2.2.1, h.2.2.2⟩

/-- Counterexample to claim C5: a language-model request that ends in
cancellation (the fetch rejects with an abort error) produces no user
facing notice at all from the provider: its only effect is the issued
request, so no `request cancelled` text is emitted, contradicting the
claim that both handlers emit one. -/
theorem provider_emits_no_cancellation_notice :
    provideLanguageModelChatResponse byteDecoder "http://localhost:5000"
        (Except.ok (some ⟨"tok", "alice"⟩))
        [⟨LMRole.user, [LMPart.text "hi"]⟩] none
        (FetchResult.reject abortError)
      = [Event.http (buildChatRequest "http://localhost:5000"
          [⟨"user", "hi"⟩] "tok")] := by
  rfl

/-- Claim C5 as amended: on a request that ends in cancellation, the
chat participant emits the user-facing cancelled notice, while the
language-model provider emits nothing beyond the already relayed
chunks: its effects are exactly the request and the pre-abort reports. -/
theorem cancellation_notice_chat_participant_only {σ : Type}
    (D : Decoder σ) (apiUrl prompt : String) (sP sC : Session)
    (messages : List LMMessage) (abP abC : Option Nat)
    (netP netC : FetchResult) (eP eC : JsError)
    (hP : (streamOutcome D abP netP).2 = some eP)
    (hPn : eP.name = "AbortError")
    (hC : (streamOutcome D abC netC).2 = some eC)
    (hCn : eC.name = "AbortError") :
    provideLanguageModelChatResponse D apiUrl (Except.ok (some sP)) messages
        abP netP
      = Event.http (buildChatRequest apiUrl (messages.map formatMessage)
            sP.accessToken)
          :: (streamOutcome D abP netP).1.map Event.report ∧
    (chatParticipantHandler D apiUrl (Except.ok (some sC)) prompt
        abC netC).events
      = Event.progress "Thinking..."
          :: Event.http (buildChatRequest apiUrl [⟨"user", prompt⟩]
                sC.accessToken)
          :: (streamOutcome D abC netC).1.map Event.markdown
          ++ [Event.markdown cancelledNotice] ∧
    Event.markdown cancelledNotice ∈
      (chatParticipantHandler D apiUrl (Except.ok (some sC)) prompt
        abC netC).events := by
  refine ⟨?_, ?_, ?_⟩
  · simp [provideLanguageModelChatResponse, getGitHubSession,
      streamFromBackend, hP, hPn]
  · simp [chatParticipantHandler, getGitHubSession,
      streamFromBackend, hC, hCn]
  · have he : (chatParticipantHandler D apiUrl (Except.ok (some sC)) prompt
        abC netC).events
        = Event.progress "Thinking..."
          :: Event.http (buildChatRequest apiUrl [⟨"user", prompt⟩]
                sC.accessToken)
          :: (streamOutcome D abC netC).1.map Event.markdown
          ++ [Event.markdown cancelledNotice] := by
      simp [chatParticipantHandler, getGitHubSession,
        streamFromBackend, hC, hCn]
    rw [he]
    simp

/-- Witness for the amended C5: a fetch rejected by the abort signal
leaves the provider with only its request event while the participant
shows the cancelled notice. -/
theorem cancellation_notice_chat_only_witness :
    provideLanguageModelChatResponse byteDecoder "http://localhost:5000"
        (Except.ok (some ⟨"tok", "alice"⟩)) [] none
        (FetchResult.reject abortError)
      = Event.http (buildChatRequest "http://localhost:5000" [] "tok")
          :: (streamOutcome byteDecoder none
                (FetchResult.reject abortError)).1.map Event.report ∧
    (chatParticipantHandler byteDecoder "http://localhost:5000"
        (Except.ok (some ⟨"tok", "alice"⟩)) "hi" none
        (FetchResult.reject abortError)).events
      = Event.progress "Thinking..."
          :: Event.http (buildChatRequest "http://localhost:5000"
                [⟨"user", "hi"⟩] "tok")
          :: (streamOutcome byteDecoder none
                (FetchResult.reject abortError)).1.map Event.markdown
          ++ [Event.markdown cancelledNotice] := by
  have h := cancellation_notice_chat_participant_only byteDecoder
    "http://localhost:5000" "hi" ⟨"tok", "alice"⟩ ⟨"tok", "alice"⟩ []
    none none (FetchResult.reject abortError) (FetchResult.reject abortError)
    abortError abortError rfl rfl rfl rfl
  exact ⟨h.1, h.2.1⟩

/-- Claim C6: when the backend call fails with a non-success HTTP status
or with a network failure other than cancellation, each handler emits a
user-facing fallback message whose text names the backend URL: the
provider reports the placeholder and the participant shows the setup
line, and both strings contain the URL. -/
theorem non_abort_failure_names_backend_url {σ : Type} (D : Decoder σ)
    (apiUrl prompt : String) (sP sC : Session) (messages : List LMMessage)
    (abP abC : Option Nat) (netP netC : FetchResult)
    (hnetP : (∃ e, netP = FetchResult.reject e ∧ e.name ≠ "AbortError") ∨
      (∃ status statusText body,
        netP = FetchResult.resp status statusText body ∧
          ¬ (200 ≤ status ∧ status < 300)))
    (hnetC : (∃ e, netC = FetchResult.reject e ∧ e.name ≠ "AbortError") ∨
      (∃ status statusText body,
        netC = FetchResult.resp status statusText body ∧
          ¬ (200 ≤ status ∧ status < 300))) :
    Event.report (placeholderMessage apiUrl) ∈
      provideLanguageModelChatResponse D apiUrl (Except.ok (some sP))
        messages abP netP ∧
    Event.markdown (backendSetupLine apiUrl) ∈
      (chatParticipantHandler D apiUrl (Except.ok (some sC)) prompt
        abC netC).events ∧
    (∃ p q, placeholderMessage apiUrl = p ++ apiUrl ++ q) ∧
    (∃ p q, backendSetupLine apiUrl = p ++ apiUrl ++ q) := by
  obtain ⟨eP, hsoP, hnP⟩ := streamOutcome_failure D abP netP hnetP
  obtain ⟨eC, hsoC, hnC⟩ := streamOutcome_failure D abC netC hnetC
  refine ⟨?_, ?_, ?_, ?_⟩
  · simp [provideLanguageModelChatResponse, getGitHubSession,
      streamFromBackend, hsoP, hnP]
  · simp [chatParticipantHandler, getGitHubSession,
      streamFromBackend, hsoC, hnC, chatFallback]
  · exact ⟨"Hello! I\x27m Kozani. The backend at ",
      " is not available yet.\n\nTo complete setup, start your backend server.",
      rfl⟩
  · exact ⟨"1. Start your backend server at `", "`\n", rfl⟩

/-- Witness for C6: a network failure for the provider and a 500 status
for the participant each surface the fallback naming the URL. -/
theorem non_abort_failure_names_backend_url_witness :
    Event.report (placeholderMessage "http://localhost:5000") ∈
      provideLanguageModelChatResponse byteDecoder "http://localhost:5000"
        (Except.ok (some ⟨"tok", "alice"⟩)) [] none
        (FetchResult.reject ⟨"TypeError", "fetch failed"⟩) ∧
    Event.markdown (backendSetupLine "http://localhost:5000") ∈
      (chatParticipantHandler byteDecoder "http://localhost:5000"
        (Except.ok (some ⟨"tok", "alice"⟩)) "hi" none
        (FetchResult.resp 500 "Internal Server Error" none)).events := by
  have h := non_abort_failure_names_backend_url byteDecoder
    "http://localhost:5000" "hi" ⟨"tok", "alice"⟩ ⟨"tok", "alice"⟩ []
    none none (FetchResult.reject ⟨"TypeError", "fetch failed"⟩)
    (FetchResult.resp 500 "Internal Server Error" none)
    (Or.inl ⟨⟨"TypeError", "fetch failed"⟩, rfl, by decide⟩)
    (Or.inr ⟨500, "Internal Server Error", none, rfl, by decide⟩)
  exact ⟨h.1, h.2.1⟩

/-- Claim C7: every request `streamFromBackend` issues is a POST to
`apiUrl/api/chat` carrying the bearer-token authorization header and
the JSON body with the `messages` list of role and content pairs, from
which the conversation messages can be read back. -/
theorem request_is_post_chat_with_bearer_and_messages {σ : Type}
    (D : Decoder σ) (apiUrl token : String) (messages : List ChatMessage)
    (ab : Option Nat) (net : FetchResult) :
    (streamFromBackend D apiUrl messages token ab net).request.method
      = "POST" ∧
    (streamFromBackend D apiUrl messages token ab net).request.url
      = apiUrl ++ "/api/chat" ∧
    ("Authorization", "Bearer " ++ token) ∈
      (streamFromBackend D apiUrl messages token ab net).request.headers ∧
    (streamFromBackend D apiUrl messages token ab net).request.body
      = messagesBodyJson messages ∧
    jsonToMessages
        (streamFromBackend D apiUrl messages token ab net).request.body
      = some messages := by
  refine ⟨rfl, rfl, ?_, rfl, ?_⟩
  · simp [streamFromBackend, buildChatRequest]
  · show jsonToMessages (messagesBodyJson messages) = some messages
    exact jsonToMessages_roundtrip messages

/-- Counterexample to claim C8: the language-model provider performs no
non-emptiness check. When the host hands it an empty message list with
an authenticated session, the HTTP request is still issued and its body
carries an empty `messages` array, so the message list passed to
`streamFromBackend` is empty at the point of sending. -/
theorem provider_sends_empty_message_list :
    provideLanguageModelChatResponse byteDecoder "http://localhost:5000"
        (Except.ok (some ⟨"tok", "alice"⟩)) [] none
        (FetchResult.resp 200 "OK" (some []))
      = [Event.http (buildChatRequest "http://localhost:5000" [] "tok")] ∧
    (buildChatRequest "http://localhost:5000" [] "tok").body
      = Json.obj [("messages", Json.arr [])] := by
  exact ⟨rfl, rfl⟩

/-- Claim C8 as amended: the chat participant always passes exactly one
user message to `streamFromBackend`; the provider passes the formatted
list, which has the same length as the host-supplied message list and
is therefore non-empty whenever the host supplies at least one message
(an empty host list is forwarded unchanged). -/
theorem message_list_nonempty_when_input_nonempty {σ : Type}
    (D : Decoder σ) (apiUrl prompt : String) (sP sC : Session)
    (messages : List LMMessage) (abP abC : Option Nat)
    (netP netC : FetchResult) (hne : messages ≠ []) :
    (∃ r, Event.http r ∈
        (chatParticipantHandler D apiUrl (Except.ok (some sC)) prompt
          abC netC).events ∧
      jsonToMessages r.body = some [⟨"user", prompt⟩]) ∧
    (messages.map formatMessage).length = messages.length ∧
    (∃ r, Event.http r ∈
        provideLanguageModelChatResponse D apiUrl (Except.ok (some sP))
          messages abP netP ∧
      jsonToMessages r.body = some (messages.map formatMessage) ∧
      messages.map formatMessage ≠ []) := by
  refine ⟨?_, ?_, ?_⟩
  · refine ⟨buildChatRequest apiUrl [⟨"user", prompt⟩] sC.accessToken,
      ?_, jsonToMessages_roundtrip _⟩
    simp [chatParticipantHandler, getGitHubSession, streamFromBackend]
  · simp
  · refine ⟨buildChatRequest apiUrl (messages.map formatMessage)
        sP.accessToken,
      ?_, jsonToMessages_roundtrip _, by simpa using hne⟩
    simp [provideLanguageModelChatResponse, getGitHubSession,
      streamFromBackend]

/-- Witness for the amended C8: a singleton host message list leads to a
non-empty formatted list and the participant sends one user message. -/
theorem message_list_nonempty_witness :
    (([⟨LMRole.user, [LMPart.text "hi"]⟩] : List LMMessage).map
        formatMessage).length
        = ([⟨LMRole.user, [LMPart.text "hi"]⟩] : List LMMessage).length ∧
    (∃ r, Event.http r ∈
        (chatParticipantHandler byteDecoder "http://localhost:5000"
          (Except.ok (some ⟨"tok", "alice"⟩)) "hi" none
          (FetchResult.resp 200 "OK" (some []))).events ∧
      jsonToMessages r.body = some [⟨"user", "hi"⟩]) := by
  have h := message_list_nonempty_when_input_nonempty byteDecoder
    "http://localhost:5000" "hi" ⟨"tok", "alice"⟩ ⟨"tok", "alice"⟩
    [⟨LMRole.user, [LMPart.text "hi"]⟩] none none
    (FetchResult.resp 200 "OK" (some []))
    (FetchResult.resp 200 "OK" (some []))
    (List.cons_ne_nil _ _)
  exact ⟨h.2.1, h.1⟩

/-- Claim C9: `getGitHubSession` never rejects: when the host
authentication call resolves it returns exactly the obtained value, and
when the host call throws it catches the error and returns `undefined`,
for either value of `createIfNone`. -/
theorem getGitHubSession_never_rejects (c : Bool) (e : JsError)
    (s : Option Session) :
    getGitHubSession c (Except.error e) = none ∧
    getGitHubSession c (Except.ok s) = s :=
  ⟨rfl, rfl⟩

/-- Claim C10: `provideTokenCount` is a pure function of its text input
computing the ceiling of a quarter of the content length, where the
content of a message input is the concatenation of its text parts with
non-text parts contributing the empty string: the result is the least
natural number `r` with `length ≤ 4 r`, and it is zero exactly for
empty content. -/
theorem provideTokenCount_is_ceil_quarter_length (t : TokenCountText) :
    (contentOf t).length ≤ 4 * provideTokenCount t ∧
    4 * provideTokenCount t < (contentOf t).length + 4 ∧
    (provideTokenCount t = 0 ↔ contentOf t = "") := by
  have hlen : (contentOf t).length = 0 ↔ contentOf t = "" := by
    constructor
    · intro h0
      apply String.ext
      have hd : (contentOf t).data.length = 0 := h0
      simpa using List.length_eq_zero.mp hd
    · intro h0
      rw [h0]
      rfl
  refine ⟨?_, ?_, ?_⟩
  · unfold provideTokenCount jsCeilDiv4
    omega
  · unfold provideTokenCount jsCeilDiv4
    omega
  · rw [← hlen]
    unfold provideTokenCount jsCeilDiv4
    omega
